import Mathlib

/-!
Verification of the metrics decoding and collection pipeline of
`Routes/processes_routes.py` (with the route handlers of
`Routes/uploadDb_routes.py` that call into it), via a shallow embedding.

Modelling conventions:
* Python strings are Lean `String`s at the interfaces; internally the
  decoder works on the character list (`String.toList`), with structurally
  recursive models of `str.split(sep)` (`splitOnChar`) and `str.strip()`
  (`trimChars`, restricted to ASCII whitespace), so that every definition
  evaluates by kernel reduction.
* Python `int(s)` / `float(s)` are modelled by `pyInt` / `pyFloat` below,
  covering optional surrounding whitespace, an optional sign, and plain
  decimal forms (floats: integral/fractional digits and an optional decimal
  exponent). Exotic accepted forms (`inf`, `nan`, underscore separators,
  non-ASCII digits) are outside the model; parse failure is `none`, matching
  the `except ValueError` handlers.
* Python floats are modelled as exact rationals (`ℚ`): the claims under
  study are about which value is selected (raw / derived / default), not
  about IEEE-754 rounding.
* A SQLite database is a list of optional tables in the fixed `TABLES`
  order; `none` stands for a table absent from the uploaded file (the
  `table_exists` check), `some rows` for its rows in storage order.
* `fastapi.HTTPException` and early `raise` are modelled with
  `Except String`; the detail message is kept verbatim.
-/

/-- Model of Python `str.split(sep)` for a one-character separator, on
character lists: keeps empty pieces, `[]` splits to `[[]]`. -/
def splitOnChar (sep : Char) : List Char → List (List Char)
  | [] => [[]]
  | c :: rest =>
      match splitOnChar sep rest with
      | [] => [[c]]
      | g :: gs => if c = sep then [] :: g :: gs else (c :: g) :: gs

/-- Model of Python `str.strip()` (ASCII whitespace) on character lists. -/
def trimChars (cs : List Char) : List Char :=
  ((cs.dropWhile Char.isWhitespace).reverse.dropWhile Char.isWhitespace).reverse

/-- Numeric value of a list of decimal digit characters. -/
def digitsToNat (ds : List Char) : Nat :=
  ds.foldl (fun a c => 10 * a + (c.toNat - 48)) 0

/-- Sign-and-digits integer form shared by `pyInt` and float exponents. -/
def signedDigits (cs : List Char) : Option Int :=
  match cs with
  | '-' :: ds =>
      if ds ≠ [] ∧ ds.all Char.isDigit then some (-(digitsToNat ds : Int)) else none
  | '+' :: ds =>
      if ds ≠ [] ∧ ds.all Char.isDigit then some (digitsToNat ds : Int) else none
  | ds =>
      if ds ≠ [] ∧ ds.all Char.isDigit then some (digitsToNat ds : Int) else none

/-- Model of Python `int(v)` on a string's characters: optional surrounding
whitespace, optional sign, then a non-empty run of decimal digits; `none` on
failure (the `ValueError` branch of `geti`). -/
def pyInt (v : List Char) : Option Int :=
  signedDigits (trimChars v)

/-- Decimal exponent suffix of a Python float literal: either nothing, or
`e`/`E` followed by a signed non-empty digit run consuming the rest. -/
def expPart (cs : List Char) : Option Int :=
  match cs with
  | [] => some 0
  | 'e' :: r => signedDigits r
  | 'E' :: r => signedDigits r
  | _ => none

/-- Mantissa and exponent assembled into an exact rational,
`±mantissa * 10 ^ (exponent - fractional digit count)`, built with `mkRat`
so that it evaluates by kernel reduction. -/
def floatVal (neg : Bool) (ip fp : List Char) (e : Int) : ℚ :=
  let mant : Int := (digitsToNat (ip ++ fp) : Int)
  let sMant : Int := if neg then -mant else mant
  if 0 ≤ e then mkRat (sMant * (10 : Int) ^ e.toNat) ((10 : Nat) ^ fp.length)
  else mkRat sMant ((10 : Nat) ^ fp.length * (10 : Nat) ^ (-e).toNat)

/-- Model of Python `float(v)` on a string's characters (finite decimal
forms), as an exact rational; `none` on failure (the `ValueError` branch of
`getf`). -/
def pyFloat (v : List Char) : Option ℚ :=
  let signed : Bool × List Char :=
    match trimChars v with
    | '-' :: r => (true, r)
    | '+' :: r => (false, r)
    | r => (false, r)
  let ipSplit := signed.2.span Char.isDigit
  let fpSplit : List Char × List Char :=
    match ipSplit.2 with
    | '.' :: r => r.span Char.isDigit
    | _ => ([], ipSplit.2)
  if ipSplit.1 = [] ∧ fpSplit.1 = [] then none
  else
    match expPart fpSplit.2 with
    | none => none
    | some e => some (floatVal signed.1 ipSplit.1 fpSplit.1 e)

/-- Embedding of the local helper `geti` of `parse_metrics`: `parts[i]` with
`IndexError` as `none`, the empty string as `None`, and `int` parsing with
`ValueError` as `none`. -/
def geti (parts : List (List Char)) (i : Nat) : Option Int :=
  match parts[i]? with
  | none => none
  | some v => if v = [] then none else pyInt v

/-- Embedding of the local helper `getf` of `parse_metrics`, like `geti`
with `float` parsing. -/
def getf (parts : List (List Char)) (i : Nat) : Option ℚ :=
  match parts[i]? with
  | none => none
  | some v => if v = [] then none else pyFloat v

/-- One decoded output record of `parse_metrics` (the dict appended to
`out`); the `timestramp` spelling is the code's. All fields are total:
the code defaults every non-timestamp field before the append. -/
structure Sample where
  timestramp : Int
  uid : String
  package_name : String
  usage_time : Int
  delta_cpu_time : Int
  cpu_usage : ℚ
  rx_data : Int
  tx_data : Int
deriving DecidableEq

/-- Embedding of lines 62-63 of `processes_routes.py`:
`if cpu is None and usage and usage != 0 and dcpu is not None:
  cpu = float(dcpu) / float(usage)`. `usage` truthy means present and
non-zero. -/
def deriveCpu (cpu : Option ℚ) (usage dcpu : Option Int) : Option ℚ :=
  match cpu, usage, dcpu with
  | none, some u, some d => if u = 0 then none else some (Rat.divInt d u)
  | c, _, _ => c

/-- Decoding of one `;`-chunk of a metrics blob (the loop body of
`parse_metrics`): split on `:`, read the six positional sub-fields, derive
`cpu`, drop the chunk when the timestamp is absent, otherwise build the
record with `x or 0` defaulting (`Option.getD 0`, which agrees with Python
`or` on integers and on rationals). The guard `"rx_data" in METRICS_INDEX`
is always true and is dropped. -/
def decodeChunk (chunk : List Char) (pkg uid : String) : Option Sample :=
  match geti (splitOnChar ':' chunk) 0 with
  | none => none
  | some t =>
      some ⟨t, uid, pkg,
        (geti (splitOnChar ':' chunk) 1).getD 0,
        (geti (splitOnChar ':' chunk) 2).getD 0,
        (deriveCpu (getf (splitOnChar ':' chunk) 3)
          (geti (splitOnChar ':' chunk) 1) (geti (splitOnChar ':' chunk) 2)).getD 0,
        (geti (splitOnChar ':' chunk) 4).getD 0,
        (geti (splitOnChar ':' chunk) 5).getD 0⟩

/-- Embedding of `parse_metrics(metrics, pkg, uid)`. The argument is
`Option String` because the `Metrics` column may be SQL NULL (Python
`None`); `if not metrics: return []` catches both `None` and `""`. -/
def parse_metrics (metrics : Option String) (pkg uid : String) : List Sample :=
  match metrics with
  | none => []
  | some m =>
      if m = "" then []
      else
        ((splitOnChar ';' m.toList).filter (fun c => trimChars c != [])).filterMap
          (fun c => decodeChunk c pkg uid)

/-- One raw row of a `processesN` table, as read by the projection
`SELECT PackageName, Uid, Pids, Metrics`. `Uid` holds `str(row["Uid"])`
(the code normalizes the loosely typed column to a string before any use);
`Metrics` is `none` for SQL NULL; `Pids` is selected but never used. -/
structure Row where
  PackageName : String
  Uid : String
  Pids : String
  Metrics : Option String

/-- Embedding of the timestamp-range test of line 102:
`(start_ms is None or ts >= start_ms) and (end_ms is None or ts <= end_ms)`. -/
def rangeOk (start_ms end_ms : Option Int) (ts : Int) : Bool :=
  (match start_ms with
   | none => true
   | some s => decide (s ≤ ts)) &&
  (match end_ms with
   | none => true
   | some e => decide (ts ≤ e))

/-- Embedding of the row-filter guards of lines 96-99, for one filter:
`if f and value != f: continue`. Python truthiness makes both `None` and
the empty string skip the comparison. -/
def filterSkip (f : Option String) (v : String) : Bool :=
  match f with
  | none => false
  | some p => decide (p ≠ "") && decide (v ≠ p)

/-- The inner loop of `collect_processed` (lines 100-106) over the decoded
records of one row: append records passing the range filter and report
`true` (early `return`) the moment `len(results) >= limit`. -/
def addSamples (start_ms end_ms : Option Int) (limit : Int) :
    List Sample → List Sample → List Sample × Bool
  | [], results => (results, false)
  | r :: rest, results =>
      if rangeOk start_ms end_ms r.timestramp then
        let results2 := results ++ [r]
        if limit ≤ (results2.length : Int) then (results2, true)
        else addSamples start_ms end_ms limit rest results2
      else addSamples start_ms end_ms limit rest results

/-- The row loop of `collect_processed` (lines 93-106) over one table:
skip rows failing the package/uid filters, decode the rest, and propagate
the early `return`. -/
def scanRows (start_ms end_ms : Option Int) (limit : Int)
    (package_name uid : Option String) :
    List Row → List Sample → List Sample × Bool
  | [], results => (results, false)
  | row :: rest, results =>
      if filterSkip package_name row.PackageName || filterSkip uid row.Uid then
        scanRows start_ms end_ms limit package_name uid rest results
      else
        let r2 := addSamples start_ms end_ms limit
          (parse_metrics row.Metrics row.PackageName row.Uid) results
        if r2.2 then r2
        else scanRows start_ms end_ms limit package_name uid rest r2.1

/-- The table loop of `collect_processed` (lines 89-106): iterate the fixed
`TABLES` order, skip tables absent from the database (`table_exists`), and
propagate the early `return`. -/
def scanTables (start_ms end_ms : Option Int) (limit : Int)
    (package_name uid : Option String) :
    List (Option (List Row)) → List Sample → List Sample × Bool
  | [], results => (results, false)
  | none :: rest, results =>
      scanTables start_ms end_ms limit package_name uid rest results
  | some rows :: rest, results =>
      let r2 := scanRows start_ms end_ms limit package_name uid rows results
      if r2.2 then r2
      else scanTables start_ms end_ms limit package_name uid rest r2.1

/-- Comparison passed to `results.sort(key=lambda x: x["timestramp"],
reverse=True)`: `a` may precede `b` when `b.timestramp ≤ a.timestramp`. -/
def descR (a b : Sample) : Prop := b.timestramp ≤ a.timestramp

instance : DecidableRel descR :=
  fun a b => (inferInstance : Decidable (b.timestramp ≤ a.timestramp))

instance : IsTotal Sample descR :=
  ⟨fun a b => le_total b.timestramp a.timestramp⟩

instance : IsTrans Sample descR :=
  ⟨fun _ _ _ hab hbc => le_trans hbc hab⟩

/-- Model of `results.sort(key=lambda x: x["timestramp"], reverse=True)`:
a stable sort placing larger timestamps first (Python's sort is stable and
`reverse=True` keeps equal keys in scan order, which is exactly
`insertionSort descR`). -/
def sortDesc (l : List Sample) : List Sample :=
  List.insertionSort descR l

/-- Embedding of `collect_processed(start_ms, end_ms, limit, package_name,
uid)`. The database argument stands for the connected `live.sqlite` file.
Both exit paths of the Python function sort the accumulated list the same
way, so the model applies the single final sort to the scan result. -/
def collect_processed (start_ms end_ms : Option Int) (limit : Int)
    (package_name uid : Option String) (db : List (Option (List Row))) :
    List Sample :=
  sortDesc (scanTables start_ms end_ms limit package_name uid db []).1

/-- Embedding of the `/processes` route handler (lines 127-138): both
bounds are required query parameters; the range check precedes any call
into `collect_processed` (and hence precedes `connect()`, modelled by the
`Option` on the database: `none` is the missing-upload state). -/
def processes (start_ms end_ms : Int) (package_name uid : Option String)
    (limit : Int) (dbFile : Option (List (Option (List Row)))) :
    Except String (List Sample) :=
  if end_ms < start_ms then Except.error "start_ms deve ser <= end_ms"
  else
    match dbFile with
    | none => Except.error "Nenhum banco enviado. Use / (upload)."
    | some db =>
        Except.ok (collect_processed (some start_ms) (some end_ms) limit
          package_name uid db)

/-- Embedding of the `/upload-db` route handler of `uploadDb_routes.py`
(lines 74-99): validate the filename extension, store the uploaded content
as the active database, then run the collector on it with the optional
query filters. The JSON envelope (`saved_as`, `count`) is dropped; the
model returns the `results` list. -/
def upload_db (filename : String) (content : List (Option (List Row)))
    (start_ms end_ms : Option Int) (package_name uid : Option String)
    (limit : Int) : Except String (List Sample) :=
  let low := filename.toList.map Char.toLower
  if !(".sqlite".toList.isSuffixOf low || ".db".toList.isSuffixOf low
      || ".sql".toList.isSuffixOf low) then
    Except.error "Envie um arquivo SQLite (.sqlite ou .db)"
  else
    Except.ok (collect_processed start_ms end_ms limit package_name uid content)

/-- Modelled from the spec (§4.2, §8 derivation law) as the claim states
it: the output `cpu_usage` a decoded chunk should carry, with the second
branch guarded by `usage_time > 0`. Division is exact rational division of
the two integer sub-fields (`Rat.divInt d u = (d : ℚ) / (u : ℚ)`). -/
def cpuUsageClaim (parts : List (List Char)) : ℚ :=
  match getf parts 3 with
  | some c => c
  | none =>
      match geti parts 1, geti parts 2 with
      | some u, some d => if 0 < u then Rat.divInt d u else 0
      | _, _ => 0

/-- Modelled from the spec's derivation law with the guard amended to
`usage_time ≠ 0` (present and non-zero), which is what line 62 of the code
tests. -/
def cpuUsageAmended (parts : List (List Char)) : ℚ :=
  match getf parts 3 with
  | some c => c
  | none =>
      match geti parts 1, geti parts 2 with
      | some u, some d => if u ≠ 0 then Rat.divInt d u else 0
      | _, _ => 0

/-- Fixture: a row whose blob decodes to one sample with timestamp 5. -/
def rowTs5 : Row := ⟨"a", "1", "", some "5:1:1:0.5:0:0"⟩

/-- Fixture: a row whose blob decodes to one sample with timestamp 3. -/
def rowTs3 : Row := ⟨"a", "1", "", some "3:1:1:0.5:0:0"⟩

/-- Fixture: a row whose blob decodes to one sample with timestamp 9. -/
def rowTs9 : Row := ⟨"a", "1", "", some "9:1:1:0.5:0:0"⟩

/-- Fixture database with three rows yielding timestamps 5, 3, 9 in scan
order, in a single table. -/
def dbC2 : List (Option (List Row)) := [some [rowTs5, rowTs3, rowTs9]]

/-- Fixture: the sample decoded from `rowTs5`. -/
def sTs5 : Sample := ⟨5, "1", "a", 1, 1, mkRat 1 2, 0, 0⟩

/-- Fixture database with one row, package `"a"`, uid `"7"`. -/
def dbC5 : List (Option (List Row)) := [some [⟨"a", "7", "", some "5:1:1:0.5:0:0"⟩]]

/-- Fixture: the sample decoded from the single row of `dbC5`. -/
def sC5 : Sample := ⟨5, "7", "a", 1, 1, mkRat 1 2, 0, 0⟩

/-- Fixture database whose single blob decodes to two samples with the
same timestamp. -/
def dbC6 : List (Option (List Row)) :=
  [some [⟨"a", "1", "", some "5:1:1:0.1:0:0;5:1:1:0.1:0:0"⟩]]

/-- Fixture database whose rows all carry a NULL or empty `Metrics` blob,
plus an absent table. -/
def dbC10 : List (Option (List Row)) :=
  [some [⟨"a", "1", "", none⟩, ⟨"b", "2", "", some ""⟩], none]

example : pyInt "-5".toList = some (-5) := by decide
example : pyInt "2.5".toList = none := by decide
example : pyFloat "0.4".toList = some (mkRat 2 5) := by decide
example : parse_metrics (some "1000:5:2:0.4:10:20") "p" "7"
    = [⟨1000, "7", "p", 5, 2, mkRat 2 5, 10, 20⟩] := by decide
example : parse_metrics (some "1000:5:2::10:20") "p" "7"
    = [⟨1000, "7", "p", 5, 2, mkRat 2 5, 10, 20⟩] := by decide
example : parse_metrics (some "1000:0:2::10:20") "p" "7"
    = [⟨1000, "7", "p", 0, 2, 0, 10, 20⟩] := by decide
example : parse_metrics (some ";;1000:1:1:0.1:0:0;") "p" "7"
    = [⟨1000, "7", "p", 1, 1, mkRat 1 10, 0, 0⟩] := by decide
example : parse_metrics (some ":1:1:0.1:0:0") "p" "7" = [] := by decide

example : (collect_processed none none 2 none none dbC2).map Sample.timestramp
    = [5, 3] := by decide
example : (collect_processed none none 1000 none none dbC2).map Sample.timestramp
    = [9, 5, 3] := by decide
example : collect_processed none none 1000 none none dbC5 = [sC5] := by decide
example : (upload_db "a.db" dbC5 (some 5) (some 3) none none 1000).isOk = true := by
  decide

theorem decodeChunk_some {c : List Char} {pkg uid : String} {s : Sample}
    (h : decodeChunk c pkg uid = some s) :
    s.package_name = pkg ∧ s.uid = uid ∧
      geti (splitOnChar ':' c) 0 = some s.timestramp := by
  unfold decodeChunk at h
  cases h0 : geti (splitOnChar ':' c) 0 with
  | none => rw [h0] at h; cases h
  | some t =>
      rw [h0] at h
      injection h with h
      subst h
      exact ⟨rfl, rfl, rfl⟩

theorem decodeChunk_isSome (c : List Char) (pkg uid : String) :
    (decodeChunk c pkg uid).isSome = (geti (splitOnChar ':' c) 0).isSome := by
  unfold decodeChunk
  cases h0 : geti (splitOnChar ':' c) 0 <;> rfl

theorem parse_metrics_mem {m : Option String} {pkg uid : String} {s : Sample}
    (h : s ∈ parse_metrics m pkg uid) :
    s.package_name = pkg ∧ s.uid = uid := by
  cases m with
  | none => cases h
  | some m =>
      simp only [parse_metrics] at h
      by_cases hm : m = ""
      · rw [if_pos hm] at h; cases h
      · rw [if_neg hm] at h
        rcases List.mem_filterMap.mp h with ⟨c, _, hc⟩
        exact ⟨(decodeChunk_some hc).1, (decodeChunk_some hc).2.1⟩

theorem rangeOk_bounds {start_ms end_ms : Option Int} {ts : Int}
    (h : rangeOk start_ms end_ms ts = true) :
    (∀ s, start_ms = some s → s ≤ ts) ∧ ∀ e, end_ms = some e → ts ≤ e := by
  cases start_ms <;> cases end_ms <;> simp_all [rangeOk]

theorem filterSkip_false {p v : String}
    (h : filterSkip (some p) v = false) (hp : p ≠ "") : v = p := by
  simpa [filterSkip, hp] using h

theorem addSamples_mem (st en : Option Int) (lim : Int) (recs : List Sample) :
    ∀ (acc : List Sample) (x : Sample),
      x ∈ (addSamples st en lim recs acc).1 →
      x ∈ acc ∨ (x ∈ recs ∧ rangeOk st en x.timestramp = true) := by
  induction recs with
  | nil =>
      intro acc x h
      exact Or.inl (by simpa [addSamples] using h)
  | cons r rest ih =>
      intro acc x h
      simp only [addSamples] at h
      by_cases hr : rangeOk st en r.timestramp = true
      · rw [if_pos hr] at h
        by_cases hl : lim ≤ (((acc ++ [r]).length : Nat) : Int)
        · rw [if_pos hl] at h
          dsimp at h
          rcases List.mem_append.mp h with h1 | h1
          · exact Or.inl h1
          · have hx : x = r := by simpa using h1
            subst hx
            exact Or.inr ⟨List.mem_cons_self _ _, hr⟩
        · rw [if_neg hl] at h
          rcases ih (acc ++ [r]) x h with h1 | h1
          · rcases List.mem_append.mp h1 with h2 | h2
            · exact Or.inl h2
            · have hx : x = r := by simpa using h2
              subst hx
              exact Or.inr ⟨List.mem_cons_self _ _, hr⟩
          · exact Or.inr ⟨List.mem_cons_of_mem r h1.1, h1.2⟩
      · rw [if_neg hr] at h
        rcases ih acc x h with h1 | h1
        · exact Or.inl h1
        · exact Or.inr ⟨List.mem_cons_of_mem r h1.1, h1.2⟩

theorem scanRows_mem (st en : Option Int) (lim : Int) (pn uf : Option String)
    (rows : List Row) :
    ∀ (acc : List Sample) (x : Sample),
      x ∈ (scanRows st en lim pn uf rows acc).1 →
      x ∈ acc ∨ ∃ row ∈ rows,
        filterSkip pn row.PackageName = false ∧ filterSkip uf row.Uid = false ∧
        x ∈ parse_metrics row.Metrics row.PackageName row.Uid ∧
        rangeOk st en x.timestramp = true := by
  induction rows with
  | nil =>
      intro acc x h
      exact Or.inl (by simpa [scanRows] using h)
  | cons row rest ih =>
      intro acc x h
      simp only [scanRows] at h
      by_cases hskip : (filterSkip pn row.PackageName || filterSkip uf row.Uid) = true
      · rw [if_pos hskip] at h
        rcases ih acc x h with h1 | ⟨row2, hm, hh⟩
        · exact Or.inl h1
        · exact Or.inr ⟨row2, List.mem_cons_of_mem row hm, hh⟩
      · rw [if_neg hskip] at h
        have hsk : filterSkip pn row.PackageName = false ∧
            filterSkip uf row.Uid = false := by
          constructor <;> by_contra hc <;>
            simp [Bool.not_eq_false] at hc <;> simp [hc] at hskip
        cases hA : addSamples st en lim
            (parse_metrics row.Metrics row.PackageName row.Uid) acc with
        | mk res stop =>
            rw [hA] at h
            have hres : ∀ y, y ∈ res →
                y ∈ acc ∨ (y ∈ parse_metrics row.Metrics row.PackageName row.Uid ∧
                  rangeOk st en y.timestramp = true) := by
              intro y hy
              exact addSamples_mem st en lim _ acc y (by rw [hA]; exact hy)
            cases stop with
            | true =>
                dsimp at h
                rcases hres x h with h1 | h1
                · exact Or.inl h1
                · exact Or.inr ⟨row, List.mem_cons_self row rest,
                    hsk.1, hsk.2, h1.1, h1.2⟩
            | false =>
                dsimp at h
                rcases ih res x h with h1 | ⟨row2, hm, hh⟩
                · rcases hres x h1 with h2 | h2
                  · exact Or.inl h2
                  · exact Or.inr ⟨row, List.mem_cons_self row rest,
                      hsk.1, hsk.2, h2.1, h2.2⟩
                · exact Or.inr ⟨row2, List.mem_cons_of_mem row hm, hh⟩

theorem scanTables_mem (st en : Option Int) (lim : Int) (pn uf : Option String)
    (tables : List (Option (List Row))) :
    ∀ (acc : List Sample) (x : Sample),
      x ∈ (scanTables st en lim pn uf tables acc).1 →
      x ∈ acc ∨ ∃ rows, some rows ∈ tables ∧ ∃ row ∈ rows,
        filterSkip pn row.PackageName = false ∧ filterSkip uf row.Uid = false ∧
        x ∈ parse_metrics row.Metrics row.PackageName row.Uid ∧
        rangeOk st en x.timestramp = true := by
  induction tables with
  | nil =>
      intro acc x h
      exact Or.inl (by simpa [scanTables] using h)
  | cons t rest ih =>
      intro acc x h
      cases t with
      | none =>
          simp only [scanTables] at h
          rcases ih acc x h with h1 | ⟨rows, hm, hh⟩
          · exact Or.inl h1
          · exact Or.inr ⟨rows, List.mem_cons_of_mem none hm, hh⟩
      | some rows =>
          simp only [scanTables] at h
          cases hA : scanRows st en lim pn uf rows acc with
          | mk res stop =>
              rw [hA] at h
              have hres : ∀ y, y ∈ res →
                  y ∈ acc ∨ ∃ row ∈ rows,
                    filterSkip pn row.PackageName = false ∧
                    filterSkip uf row.Uid = false ∧
                    y ∈ parse_metrics row.Metrics row.PackageName row.Uid ∧
                    rangeOk st en y.timestramp = true := by
                intro y hy
                exact scanRows_mem st en lim pn uf rows acc y (by rw [hA]; exact hy)
              cases stop with
              | true =>
                  dsimp at h
                  rcases hres x h with h1 | h1
                  · exact Or.inl h1
                  · exact Or.inr ⟨rows, List.mem_cons_self (some rows) rest, h1⟩
              | false =>
                  dsimp at h
                  rcases ih res x h with h1 | ⟨rows2, hm, hh⟩
                  · rcases hres x h1 with h2 | h2
                    · exact Or.inl h2
                    · exact Or.inr ⟨rows, List.mem_cons_self (some rows) rest, h2⟩
                  · exact Or.inr ⟨rows2, List.mem_cons_of_mem (some rows) hm, hh⟩

theorem mem_sortDesc {x : Sample} {l : List Sample} :
    x ∈ sortDesc l ↔ x ∈ l :=
  List.mem_insertionSort descR

theorem collect_processed_mem {st en : Option Int} {lim : Int}
    {pn uf : Option String} {db : List (Option (List Row))} {x : Sample}
    (h : x ∈ collect_processed st en lim pn uf db) :
    ∃ rows, some rows ∈ db ∧ ∃ row ∈ rows,
      filterSkip pn row.PackageName = false ∧ filterSkip uf row.Uid = false ∧
      x ∈ parse_metrics row.Metrics row.PackageName row.Uid ∧
      rangeOk st en x.timestramp = true := by
  have h1 := mem_sortDesc.mp h
  rcases scanTables_mem st en lim pn uf db [] x h1 with h2 | h2
  · cases h2
  · exact h2

theorem addSamples_len (st en : Option Int) (lim : Int) (recs : List Sample) :
    ∀ acc : List Sample, (acc.length : Int) < lim →
      ((((addSamples st en lim recs acc).1.length : Int) ≤ lim) ∧
        ((addSamples st en lim recs acc).2 = false →
          (((addSamples st en lim recs acc).1.length : Int) < lim))) := by
  induction recs with
  | nil =>
      intro acc hacc
      refine ⟨by simpa [addSamples] using le_of_lt hacc, ?_⟩
      intro
      simpa [addSamples] using hacc
  | cons r rest ih =>
      intro acc hacc
      simp only [addSamples]
      by_cases hr : rangeOk st en r.timestramp = true
      · rw [if_pos hr]
        by_cases hl : lim ≤ (((acc ++ [r]).length : Nat) : Int)
        · rw [if_pos hl]
          have hlen : (((acc ++ [r]).length : Nat) : Int) = (acc.length : Int) + 1 := by
            simp
          constructor
          · dsimp
            omega
          · intro hfalse
            simp at hfalse
        · rw [if_neg hl]
          exact ih (acc ++ [r]) (lt_of_not_le hl)
      · rw [if_neg hr]
        exact ih acc hacc

theorem scanRows_len (st en : Option Int) (lim : Int) (pn uf : Option String)
    (rows : List Row) :
    ∀ acc : List Sample, (acc.length : Int) < lim →
      ((((scanRows st en lim pn uf rows acc).1.length : Int) ≤ lim) ∧
        ((scanRows st en lim pn uf rows acc).2 = false →
          (((scanRows st en lim pn uf rows acc).1.length : Int) < lim))) := by
  induction rows with
  | nil =>
      intro acc hacc
      refine ⟨by simpa [scanRows] using le_of_lt hacc, ?_⟩
      intro
      simpa [scanRows] using hacc
  | cons row rest ih =>
      intro acc hacc
      simp only [scanRows]
      by_cases hskip : (filterSkip pn row.PackageName || filterSkip uf row.Uid) = true
      · rw [if_pos hskip]
        exact ih acc hacc
      · rw [if_neg hskip]
        cases hA : addSamples st en lim
            (parse_metrics row.Metrics row.PackageName row.Uid) acc with
        | mk res stop =>
            have hAdd := addSamples_len st en lim
              (parse_metrics row.Metrics row.PackageName row.Uid) acc hacc
            rw [hA] at hAdd
            cases stop with
            | true =>
                dsimp
                exact ⟨hAdd.1, by intro hfalse; simp at hfalse⟩
            | false =>
                dsimp
                exact ih res (hAdd.2 rfl)

theorem scanTables_len (st en : Option Int) (lim : Int) (pn uf : Option String)
    (tables : List (Option (List Row))) :
    ∀ acc : List Sample, (acc.length : Int) < lim →
      ((((scanTables st en lim pn uf tables acc).1.length : Int) ≤ lim) ∧
        ((scanTables st en lim pn uf tables acc).2 = false →
          (((scanTables st en lim pn uf tables acc).1.length : Int) < lim))) := by
  induction tables with
  | nil =>
      intro acc hacc
      refine ⟨by simpa [scanTables] using le_of_lt hacc, ?_⟩
      intro
      simpa [scanTables] using hacc
  | cons t rest ih =>
      intro acc hacc
      cases t with
      | none =>
          simp only [scanTables]
          exact ih acc hacc
      | some rows =>
          simp only [scanTables]
          cases hA : scanRows st en lim pn uf rows acc with
          | mk res stop =>
              have hRows := scanRows_len st en lim pn uf rows acc hacc
              rw [hA] at hRows
              cases stop with
              | true =>
                  dsimp
                  exact ⟨hRows.1, by intro hfalse; simp at hfalse⟩
              | false =>
                  dsimp
                  exact ih res (hRows.2 rfl)

theorem length_sortDesc (l : List Sample) : (sortDesc l).length = l.length :=
  List.length_insertionSort descR l

theorem scanRows_append (st en : Option Int) (lim : Int) (pn uf : Option String)
    (rows : List Row) :
    ∀ (more : List Row) (acc : List Sample),
      (scanRows st en lim pn uf rows acc).2 = true →
      scanRows st en lim pn uf (rows ++ more) acc
        = scanRows st en lim pn uf rows acc := by
  induction rows with
  | nil =>
      intro more acc h
      simp [scanRows] at h
  | cons row rest ih =>
      intro more acc h
      rw [List.cons_append]
      simp only [scanRows] at h ⊢
      by_cases hskip : (filterSkip pn row.PackageName || filterSkip uf row.Uid) = true
      · simp only [if_pos hskip] at h ⊢
        exact ih more acc h
      · simp only [if_neg hskip] at h ⊢
        cases hA : addSamples st en lim
            (parse_metrics row.Metrics row.PackageName row.Uid) acc with
        | mk res stop =>
            rw [hA] at h
            cases stop with
            | true => rfl
            | false =>
                dsimp at h ⊢
                exact ih more res h

theorem scanTables_append (st en : Option Int) (lim : Int) (pn uf : Option String)
    (tables : List (Option (List Row))) :
    ∀ (more : List (Option (List Row))) (acc : List Sample),
      (scanTables st en lim pn uf tables acc).2 = true →
      scanTables st en lim pn uf (tables ++ more) acc
        = scanTables st en lim pn uf tables acc := by
  induction tables with
  | nil =>
      intro more acc h
      simp [scanTables] at h
  | cons t rest ih =>
      intro more acc h
      rw [List.cons_append]
      cases t with
      | none =>
          simp only [scanTables] at h ⊢
          exact ih more acc h
      | some rows =>
          simp only [scanTables] at h ⊢
          cases hA : scanRows st en lim pn uf rows acc with
          | mk res stop =>
              rw [hA] at h
              cases stop with
              | true => rfl
              | false =>
                  dsimp at h ⊢
                  exact ih more res h

theorem length_filterMap_isSome {α β : Type} (f : α → Option β) (l : List α) :
    (l.filterMap f).length = (l.filter (fun a => (f a).isSome)).length := by
  induction l with
  | nil => rfl
  | cons a rest ih =>
      cases hf : f a <;> simp [List.filterMap_cons, hf, ih]

theorem scanRows_no_metrics (st en : Option Int) (lim : Int)
    (pn uf : Option String) (rows : List Row) :
    ∀ acc : List Sample,
      (∀ r ∈ rows, parse_metrics r.Metrics r.PackageName r.Uid = []) →
      scanRows st en lim pn uf rows acc = (acc, false) := by
  induction rows with
  | nil => intro acc _; rfl
  | cons row rest ih =>
      intro acc hall
      simp only [scanRows]
      by_cases hskip : (filterSkip pn row.PackageName || filterSkip uf row.Uid) = true
      · rw [if_pos hskip]
        exact ih acc (fun r hr => hall r (List.mem_cons_of_mem row hr))
      · rw [if_neg hskip]
        rw [hall row (List.mem_cons_self row rest)]
        simp only [addSamples]
        dsimp
        exact ih acc (fun r hr => hall r (List.mem_cons_of_mem row hr))

theorem scanTables_no_metrics (st en : Option Int) (lim : Int)
    (pn uf : Option String) (tables : List (Option (List Row))) :
    ∀ acc : List Sample,
      (∀ t ∈ tables, ∀ r ∈ t.getD [],
        parse_metrics r.Metrics r.PackageName r.Uid = []) →
      scanTables st en lim pn uf tables acc = (acc, false) := by
  induction tables with
  | nil => intro acc _; rfl
  | cons t rest ih =>
      intro acc hall
      cases t with
      | none =>
          simp only [scanTables]
          exact ih acc (fun t2 h2 => hall t2 (List.mem_cons_of_mem none h2))
      | some rows =>
          simp only [scanTables]
          rw [scanRows_no_metrics st en lim pn uf rows acc
            (fun r hr => hall (some rows) (List.mem_cons_self _ _) r hr)]
          dsimp
          exact ih acc (fun t2 h2 => hall t2 (List.mem_cons_of_mem (some rows) h2))

/-- C1 (counterexample): the derivation law as stated in the claim fails on
the code. For the chunk `"1000:-5:10::0:0"` the raw `cpu_usage` sub-field
is absent and `usage_time = -5` is not `> 0`, so the claim's law demands an
output of `0.0`; the code's guard is only `usage != 0`, so it divides and
emits `10 / -5 = -2`. -/
theorem claim_C1_counterexample :
    ∃ s, decodeChunk "1000:-5:10::0:0".toList "p" "7" = some s ∧
      s.cpu_usage ≠ cpuUsageClaim (splitOnChar ':' "1000:-5:10::0:0".toList) ∧
      s.cpu_usage = mkRat (-2) 1 :=
  ⟨⟨1000, "7", "p", -5, 10, mkRat (-2) 1, 0, 0⟩, by decide, by decide, by decide⟩

/-- C1 (amended): for every decoded chunk, the output `cpu_usage` obeys the
derivation law with the second branch guarded by `usage_time` present and
non-zero (instead of `> 0`): if the raw `cpu_usage` sub-field parses, the
output equals it; else if `usage_time` parses to a non-zero value and
`delta_cpu_time` parses, the output is `delta_cpu_time / usage_time`; else
the output is `0`. In particular a present-but-zero `usage_time` does not
trigger division. -/
theorem claim_C1 (c : List Char) (pkg uid : String) (s : Sample)
    (h : decodeChunk c pkg uid = some s) :
    s.cpu_usage = cpuUsageAmended (splitOnChar ':' c) := by
  unfold decodeChunk at h
  cases h0 : geti (splitOnChar ':' c) 0 with
  | none => rw [h0] at h; cases h
  | some t =>
      rw [h0] at h
      injection h with h
      subst h
      unfold cpuUsageAmended
      cases hc : getf (splitOnChar ':' c) 3 with
      | some x => simp [deriveCpu, hc]
      | none =>
          cases hu : geti (splitOnChar ':' c) 1 with
          | none =>
              cases hd : geti (splitOnChar ':' c) 2 <;>
                simp [deriveCpu, hc, hu, hd]
          | some u =>
              cases hd : geti (splitOnChar ':' c) 2 with
              | none => simp [deriveCpu, hc, hu, hd]
              | some d =>
                  by_cases hz : u = 0 <;> simp [deriveCpu, hc, hu, hd, hz]

/-- C1 (witness): the amended law applied to the chunk `"1000:5:2::10:20"`,
whose raw `cpu_usage` is absent and which derives `2 / 5`. -/
theorem claim_C1_witness :
    ∃ s, decodeChunk "1000:5:2::10:20".toList "p" "7" = some s ∧
      s.cpu_usage = cpuUsageAmended (splitOnChar ':' "1000:5:2::10:20".toList) :=
  ⟨⟨1000, "7", "p", 5, 2, mkRat 2 5, 10, 20⟩, by decide,
    claim_C1 "1000:5:2::10:20".toList "p" "7" _ (by decide)⟩

/-- C2: early exit at the cap. Once the early `return` has fired while
scanning a prefix of the rows (resp. tables), appending further rows
(resp. tables) does not change the outcome — no further rows or tables
are examined. On the concrete database with rows yielding timestamps
5, 3, 9 in scan order and `limit = 2`, the result is exactly the first
two matches sorted descending, `[5, 3]`, and never includes the unscanned
timestamp 9. -/
theorem claim_C2 :
    (∀ (st en : Option Int) (lim : Int) (pn uf : Option String)
        (rows more : List Row) (acc : List Sample),
      (scanRows st en lim pn uf rows acc).2 = true →
      scanRows st en lim pn uf (rows ++ more) acc
        = scanRows st en lim pn uf rows acc)
    ∧ (∀ (st en : Option Int) (lim : Int) (pn uf : Option String)
        (tables more : List (Option (List Row))) (acc : List Sample),
      (scanTables st en lim pn uf tables acc).2 = true →
      scanTables st en lim pn uf (tables ++ more) acc
        = scanTables st en lim pn uf tables acc)
    ∧ (collect_processed none none 2 none none dbC2).map Sample.timestramp = [5, 3]
    ∧ (collect_processed none none 2 none none dbC2).all
        (fun s => s.timestramp != 9) = true :=
  ⟨fun st en lim pn uf rows more acc h =>
      scanRows_append st en lim pn uf rows more acc h,
   fun st en lim pn uf tables more acc h =>
      scanTables_append st en lim pn uf tables more acc h,
   by decide, by decide⟩

/-- C2 (witness): the table-level early-exit equation applied at a
concrete stopped prefix (`limit = 1`, first table already satisfies it). -/
theorem claim_C2_witness :
    (scanTables none none 1 none none [some [rowTs5]] []).2 = true ∧
    scanTables none none 1 none none ([some [rowTs5]] ++ [some [rowTs9]]) []
      = scanTables none none 1 none none [some [rowTs5]] [] :=
  ⟨by decide,
    claim_C2.2.1 none none 1 none none [some [rowTs5]] [some [rowTs9]] [] (by decide)⟩

/-- C3: for every query and database, the collector returns at most
`limit` samples (under the positive-cap precondition `1 ≤ limit`). -/
theorem claim_C3 (st en : Option Int) (lim : Int) (pn uf : Option String)
    (db : List (Option (List Row))) (h : 1 ≤ lim) :
    ((collect_processed st en lim pn uf db).length : Int) ≤ lim := by
  unfold collect_processed
  rw [length_sortDesc]
  refine (scanTables_len st en lim pn uf db [] ?_).1
  simpa using lt_of_lt_of_le zero_lt_one h

/-- C3 (witness): the cap law at `limit = 1` on the three-sample fixture
database. -/
theorem claim_C3_witness :
    ((collect_processed none none 1 none none dbC2).length : Int) ≤ 1 :=
  claim_C3 none none 1 none none dbC2 (by decide)

/-- C4: every sample returned by the collector satisfies each supplied
timestamp bound, inclusively; an absent bound imposes no constraint. -/
theorem claim_C4 (st en : Option Int) (lim : Int) (pn uf : Option String)
    (db : List (Option (List Row))) (x : Sample)
    (hx : x ∈ collect_processed st en lim pn uf db) :
    (∀ s, st = some s → s ≤ x.timestramp) ∧ ∀ e, en = some e → x.timestramp ≤ e := by
  rcases collect_processed_mem hx with ⟨rows, _, row, _, _, _, _, hrange⟩
  exact rangeOk_bounds hrange

/-- C4 (witness): the bounds law at the query `[4, 6]` on the fixture
database, for the returned sample with timestamp 5. -/
theorem claim_C4_witness :
    sTs5 ∈ collect_processed (some 4) (some 6) 1000 none none dbC2 ∧
    (4 : Int) ≤ sTs5.timestramp ∧ sTs5.timestramp ≤ 6 := by
  have hm : sTs5 ∈ collect_processed (some 4) (some 6) 1000 none none dbC2 := by
    decide
  have h := claim_C4 (some 4) (some 6) 1000 none none dbC2 sTs5 hm
  exact ⟨hm, h.1 4 rfl, h.2 6 rfl⟩

/-- C5 (counterexample): the exact-match filter law fails for a supplied
empty-string filter value. Python truthiness (`if package_name and ...`,
`if uid and ...`) disables the comparison for `""`, so with filter `""`
the collector still returns samples whose `package_name` (resp. `uid`)
is not `""`. -/
theorem claim_C5_counterexample :
    (∃ x ∈ collect_processed none none 1000 (some "") none dbC5,
      x.package_name ≠ "")
    ∧ ∃ x ∈ collect_processed none none 1000 none (some "") dbC5,
      x.uid ≠ "" := by
  decide

/-- C5 (amended): for every supplied non-empty `package_name` filter value,
every returned sample's `package_name` equals it exactly; likewise for a
supplied non-empty `uid` filter value and the samples' `uid` (already the
string form of the stored column). -/
theorem claim_C5 (st en : Option Int) (lim : Int) (pn uf : Option String)
    (db : List (Option (List Row))) (x : Sample)
    (hx : x ∈ collect_processed st en lim pn uf db) :
    (∀ p, pn = some p → p ≠ "" → x.package_name = p) ∧
    (∀ v, uf = some v → v ≠ "" → x.uid = v) := by
  rcases collect_processed_mem hx with ⟨rows, _, row, _, hskp, hsku, hmem, _⟩
  have hpkg := (parse_metrics_mem hmem).1
  have huid := (parse_metrics_mem hmem).2
  constructor
  · rintro p rfl hp
    rw [hpkg]
    exact filterSkip_false hskp hp
  · rintro v rfl hv
    rw [huid]
    exact filterSkip_false hsku hv

/-- C5 (witness): the amended filter law at the non-empty filters
`package_name = "a"`, `uid = "7"` on the fixture database. -/
theorem claim_C5_witness :
    sC5 ∈ collect_processed none none 1000 (some "a") (some "7") dbC5 ∧
    sC5.package_name = "a" ∧ sC5.uid = "7" := by
  have hm : sC5 ∈ collect_processed none none 1000 (some "a") (some "7") dbC5 := by
    decide
  have h := claim_C5 none none 1000 (some "a") (some "7") dbC5 sC5 hm
  exact ⟨hm, h.1 "a" rfl (by decide), h.2 "7" rfl (by decide)⟩

/-- C6 (counterexample): the ordering is not strictly descending: a blob
with two chunks carrying the same timestamp yields a returned sequence
with a repeated timestamp. -/
theorem claim_C6_counterexample :
    ¬ List.Pairwise (fun a b : Sample => b.timestramp < a.timestramp)
      (collect_processed none none 1000 none none dbC6) := by
  decide

/-- C6 (amended): on every exit path (the model sorts the accumulated
result of both the early-exit and the full-scan path) the returned
sequence is sorted by timestamp in descending (non-increasing) order:
each later sample's timestamp is `≤` each earlier one's. -/
theorem claim_C6 (st en : Option Int) (lim : Int) (pn uf : Option String)
    (db : List (Option (List Row))) :
    List.Pairwise descR (collect_processed st en lim pn uf db) :=
  List.sorted_insertionSort descR _

/-- C7: every emitted sample's timestamp comes from a successful parse of
the chunk's timestamp sub-field (never null), the number of emitted
samples is exactly the number of non-empty chunks whose timestamp
sub-field parses (chunks with an absent/unparsable timestamp are silently
dropped), and the spec's Example 5 blob (empty timestamp sub-field)
decodes to zero samples. All non-timestamp fields of `Sample` are total
(integer/rational/string, defaulted by the decoder), which models
"present and non-null" in the output. -/
theorem claim_C7 (m pkg uid : String) :
    (parse_metrics (some m) pkg uid).length
      = (((splitOnChar ';' m.toList).filter (fun c => trimChars c != [])).filter
          (fun c => (geti (splitOnChar ':' c) 0).isSome)).length
    ∧ (∀ s ∈ parse_metrics (some m) pkg uid,
        ∃ c ∈ (splitOnChar ';' m.toList).filter (fun c => trimChars c != []),
          geti (splitOnChar ':' c) 0 = some s.timestramp)
    ∧ parse_metrics (some ":1:1:0.1:0:0") pkg uid = [] := by
  refine ⟨?_, ?_, rfl⟩
  · by_cases hm : m = ""
    · subst hm; rfl
    · simp only [parse_metrics, if_neg hm]
      rw [length_filterMap_isSome]
      congr 1
      apply List.filter_congr
      intro c _
      exact decodeChunk_isSome c pkg uid
  · intro s hs
    simp only [parse_metrics] at hs
    by_cases hm : m = ""
    · rw [if_pos hm] at hs; cases hs
    · rw [if_neg hm] at hs
      rcases List.mem_filterMap.mp hs with ⟨c, hc, hdec⟩
      exact ⟨c, hc, (decodeChunk_some hdec).2.2⟩

/-- C7 (witness): the timestamp-provenance part applied to a concrete
blob and its decoded sample. -/
theorem claim_C7_witness :
    ∃ c ∈ (splitOnChar ';' "7:1:1:0.5:0:0".toList).filter
        (fun c => trimChars c != []),
      geti (splitOnChar ':' c) 0 = some (7 : Int) := by
  have h := (claim_C7 "7:1:1:0.5:0:0" "p" "9").2.1
  have hs : (⟨7, "9", "p", 1, 1, mkRat 1 2, 0, 0⟩ : Sample)
      ∈ parse_metrics (some "7:1:1:0.5:0:0") "p" "9" := by decide
  simpa using h _ hs

/-- C8: a chunk whose timestamp sub-field parses is never aborted: a
sample is always emitted, whatever the other sub-fields contain (absent
index, empty string, or unparsable text each make `geti`/`getf` return
`none`, which the decoder defaults to `0`/`0.0`); on the concrete chunk
`"1000:abc:2.5:x:y:z"` — every non-timestamp sub-field unparsable — the
decoder emits the fully defaulted sample. In the model the decoder is a
total function, which captures that decoding never raises. -/
theorem claim_C8 :
    (∀ (chunk : List Char) (pkg uid : String) (t : Int),
      geti (splitOnChar ':' chunk) 0 = some t →
      ∃ s, decodeChunk chunk pkg uid = some s ∧ s.timestramp = t ∧
        (geti (splitOnChar ':' chunk) 1 = none → s.usage_time = 0) ∧
        (geti (splitOnChar ':' chunk) 2 = none → s.delta_cpu_time = 0) ∧
        (geti (splitOnChar ':' chunk) 4 = none → s.rx_data = 0) ∧
        (geti (splitOnChar ':' chunk) 5 = none → s.tx_data = 0) ∧
        (getf (splitOnChar ':' chunk) 3 = none →
          geti (splitOnChar ':' chunk) 2 = none → s.cpu_usage = 0))
    ∧ decodeChunk "1000:abc:2.5:x:y:z".toList "p" "7"
        = some ⟨1000, "7", "p", 0, 0, 0, 0, 0⟩ := by
  constructor
  · intro chunk pkg uid t ht
    refine ⟨⟨t, uid, pkg,
        (geti (splitOnChar ':' chunk) 1).getD 0,
        (geti (splitOnChar ':' chunk) 2).getD 0,
        (deriveCpu (getf (splitOnChar ':' chunk) 3)
          (geti (splitOnChar ':' chunk) 1) (geti (splitOnChar ':' chunk) 2)).getD 0,
        (geti (splitOnChar ':' chunk) 4).getD 0,
        (geti (splitOnChar ':' chunk) 5).getD 0⟩,
      ?_, rfl, ?_, ?_, ?_, ?_, ?_⟩
    · unfold decodeChunk
      rw [ht]
    · intro h1; rw [h1]; rfl
    · intro h2; rw [h2]; rfl
    · intro h4; rw [h4]; rfl
    · intro h5; rw [h5]; rfl
    · intro h3 h2
      cases hu : geti (splitOnChar ':' chunk) 1 <;>
        simp [deriveCpu, h3, h2, hu]
  · decide

/-- C8 (witness): the field-locality part applied to the chunk
`"1000:abc"`, whose `usage_time` sub-field is unparsable text and whose
remaining sub-fields are absent. -/
theorem claim_C8_witness :
    ∃ s, decodeChunk "1000:abc".toList "p" "7" = some s ∧
      s.timestramp = 1000 ∧ s.usage_time = 0 := by
  rcases claim_C8.1 "1000:abc".toList "p" "7" 1000 (by decide) with
    ⟨s, hs, ht, hu, -, -, -, -⟩
  exact ⟨s, hs, ht, hu (by decide)⟩

/-- C9 (counterexample): not every query with both bounds supplied and
`start_ms > end_ms` is rejected: the upload endpoint performs no range
validation and proceeds to collection, returning a success response. -/
theorem claim_C9_counterexample :
    (5 : Int) > 3 ∧
    (upload_db "a.db" dbC5 (some 5) (some 3) none none 1000).isOk = true := by
  decide

/-- C9 (amended): for the `/processes` range endpoint, every query with
`start_ms > end_ms` is rejected with the 400 error before any collection
work begins — the outcome is the same error for every state of the
database, including the not-yet-uploaded state. The upload endpoint does
not validate the range. -/
theorem claim_C9 (start_ms end_ms : Int) (pn uf : Option String) (lim : Int)
    (dbFile : Option (List (Option (List Row)))) (h : end_ms < start_ms) :
    processes start_ms end_ms pn uf lim dbFile
      = Except.error "start_ms deve ser <= end_ms" := by
  unfold processes
  rw [if_pos h]

/-- C9 (witness): the amended rejection law at the concrete invalid range
`start_ms = 5 > 3 = end_ms`. -/
theorem claim_C9_witness :
    (3 : Int) < 5 ∧
    processes 5 3 none none 1000 (some dbC5)
      = Except.error "start_ms deve ser <= end_ms" :=
  ⟨by decide, claim_C9 5 3 none none 1000 (some dbC5) (by decide)⟩

/-- C10: a NULL (`none`) or empty metrics blob decodes to the empty
sample sequence without error, and a database all of whose rows carry
NULL or empty blobs yields the empty collection for every query. -/
theorem claim_C10 :
    (∀ pkg uid, parse_metrics none pkg uid = []
      ∧ parse_metrics (some "") pkg uid = [])
    ∧ ∀ (st en : Option Int) (lim : Int) (pn uf : Option String)
        (db : List (Option (List Row))),
      (∀ t ∈ db, ∀ r ∈ t.getD [], r.Metrics = none ∨ r.Metrics = some "") →
      collect_processed st en lim pn uf db = [] := by
  constructor
  · intro pkg uid
    exact ⟨rfl, rfl⟩
  · intro st en lim pn uf db hdb
    unfold collect_processed
    rw [scanTables_no_metrics st en lim pn uf db []]
    · rfl
    · intro t ht r hr
      rcases hdb t ht r hr with h | h <;> rw [h] <;> rfl

/-- C10 (witness): the empty-collection law on a database with one
NULL-blob row, one empty-blob row, and one absent table. -/
theorem claim_C10_witness :
    collect_processed none none 1000 none none dbC10 = [] :=
  claim_C10.2 none none 1000 none none dbC10 (by decide)
